import Mathlib

/-!
Shallow embedding of the lantern command protocol (src/lantern/lantern.py):
the command value model (`BaseCommand.__init__` and its subclasses), the wire
codec (`CommandProtocol.encode` / `decode` / `register`), the stream transport
(`CommandTransport._retry_read`, `_process_buffer`, `recv`), and the client's
receive loop (`LanternClient.loop`).

Modelling conventions:
* Python `bytes` values become `List Nat` (each entry a byte value).
* Python functions that can raise become `Option`- or `Except`-valued:
  `struct.pack`/`struct.unpack` range and size errors are `none`,
  `CommandProtocol.register`'s `ValueError` is `Except.error`.
* The `async` retry loops of the transport suspend on timers but are
  sequentially deterministic; timers are dropped and each loop takes a fuel
  argument (`none` on fuel exhaustion).  Fuel-sufficiency is proved separately.
* A readable stream endpoint is a pair of the remaining byte data and a
  chunk-size policy `serve : Nat → Nat` (how many bytes one `read n` call
  yields).  `DefaultReader` and `OneByteAtATimeReader` from
  src/lantern/test_lantern.py are the two instances used by the repository.
-/

set_option linter.unusedVariables false

abbrev Bytes := List Nat

def COMMAND_HEADER_LENGTH : Nat := 3

/-- Model of `BaseCommand` instance state: `type`, `length`, `value`
(src/lantern/lantern.py lines 86-100).  Equality in the source is
`hash((type, length, value)) == hash(...)`, i.e. componentwise equality. -/
structure Command where
  type : Nat
  length : Nat
  value : Option Bytes
deriving DecidableEq, Repr

/-- Model of `BaseCommand.__init__`: stores `value` and sets
`length = len(value) if value is not None else 0`. -/
def mkCommand (t : Nat) (v : Option Bytes) : Command :=
  { type := t, length := (v.map List.length).getD 0, value := v }

/-- A command class registered with the protocol: in the source every class
calls `BaseCommand.__init__`, so a class is determined by its `type` byte. -/
structure CommandClass where
  ctype : Nat
deriving DecidableEq, Repr

/-- Calling the class on a payload, e.g. `CommandColor(value)`. -/
def CommandClass.construct (cls : CommandClass) (v : Option Bytes) : Command :=
  mkCommand cls.ctype v

def BaseCommandClass : CommandClass := ⟨0x00⟩
def CommandUnknownClass : CommandClass := ⟨0x99⟩
def CommandOnClass : CommandClass := ⟨0x12⟩
def CommandOffClass : CommandClass := ⟨0x13⟩
def CommandColorClass : CommandClass := ⟨0x20⟩

/-- Model of `CommandOn()` -/
def CommandOn : Command := CommandOnClass.construct none
/-- Model of `CommandOff()` -/
def CommandOff : Command := CommandOffClass.construct none
/-- Model of `CommandUnknown()` -/
def CommandUnknown : Command := CommandUnknownClass.construct none

/-- Model of `struct.pack('>BH', t, len)`: one unsigned byte followed by a big-endian
unsigned 16-bit integer; raises (here: `none`) when out of range. -/
def packBH (t len : Nat) : Option Bytes :=
  if t < 256 ∧ len < 65536 then some [t, len / 256, len % 256] else none

/-- Model of `struct.pack('>BBB', r, g, b)`: three unsigned bytes, range-checked. -/
def packBBB (r g b : Nat) : Option Bytes :=
  if r < 256 ∧ g < 256 ∧ b < 256 then some [r, g, b] else none

/-- Model of `struct.pack('>Ns', v)`: `v` truncated or zero-padded to exactly `n`
bytes (the `s` format never range-fails). -/
def packS (n : Nat) (v : Bytes) : Bytes :=
  v.take n ++ List.replicate (n - v.length) 0

/-- Model of `struct.unpack('>BH', bs)`: succeeds only on exactly 3 bytes, yielding
the type byte and the big-endian 16-bit length. -/
def unpackBH (bs : Bytes) : Option (Nat × Nat) :=
  match bs with
  | [a, b, c] => some (a, b * 256 + c)
  | _ => none

/-- Model of `struct.unpack_from('>Ns', bs, offset)`: requires
`offset + n ≤ len(bs)`; extracts the `n` bytes at `offset`. -/
def unpackFromS (n off : Nat) (bs : Bytes) : Option Bytes :=
  if off + n ≤ bs.length then some ((bs.drop off).take n) else none

/-- Model of `CommandColor.rgb`: `unpack('>BBB', self.value)` — succeeds only when
the stored value is exactly 3 bytes. -/
def Command.rgb (c : Command) : Option (Nat × Nat × Nat) :=
  match c.value with
  | some [r, g, b] => some (r, g, b)
  | _ => none

/-- Model of `CommandColor.from_rgb(r, g, b)` = `CommandColor(pack('>BBB', r, g, b))`. -/
def CommandColor.from_rgb (r g b : Nat) : Option Command :=
  (packBBB r g b).map (fun v => CommandColorClass.construct (some v))

/-- The command registry `CommandProtocol._registry`: a dict from type byte
to class, in insertion order. -/
abbrev Registry := List (Nat × CommandClass)

/-- Dict key lookup in the registry. -/
def Registry.find (reg : Registry) (t : Nat) : Option CommandClass :=
  match reg with
  | [] => none
  | (k, c) :: rest => if k = t then some c else Registry.find rest t

/-- Model of `CommandProtocol.encode` (lines 55-60): 3-byte header `pack('>BH')`,
then `pack('>Ns', value)` appended when `length > 0`. -/
def CommandProtocol.encode (c : Command) : Option Bytes :=
  match packBH c.type c.length with
  | none => none
  | some message =>
    if c.length > 0 then
      match c.value with
      | some v => some (message ++ packS c.length v)
      | none => none
    else
      some message

/-- Model of `CommandProtocol.decode` (lines 62-68): unknown type bytes are ignored
(`None`), otherwise the registered class is called on the payload. -/
def CommandProtocol.decode (reg : Registry) (type_ : Nat) (value : Option Bytes) :
    Option Command :=
  match reg.find type_ with
  | none => none
  | some cls => some (cls.construct value)

/-- Error taxonomy of registration: a second variant claiming an
already-used type byte (the `ValueError` of the source). -/
inductive ProtocolError
  | DuplicateRegistration
deriving DecidableEq, Repr

/-- Model of `CommandProtocol.register` (lines 70-75): raises `ValueError` when the
type byte is already present, else adds the mapping. -/
def CommandProtocol.register (reg : Registry) (cls : CommandClass) :
    Except ProtocolError Registry :=
  if (reg.find cls.ctype).isSome then
    Except.error ProtocolError.DuplicateRegistration
  else
    Except.ok (reg ++ [(cls.ctype, cls)])

/-- The registry contents after a raising `register` call: a raise aborts
before the dict assignment, so the dict is left as it was. -/
def registerOutcome (reg : Registry) (cls : CommandClass) : Registry :=
  match CommandProtocol.register reg cls with
  | Except.ok r => r
  | Except.error _ => reg

/-- Sequential registration, as performed by the `Meta` metaclass at class
creation time; a duplicate aborts module import. -/
def registerAll (reg : Registry) : List CommandClass → Except ProtocolError Registry
  | [] => Except.ok reg
  | c :: cs =>
    match CommandProtocol.register reg c with
    | Except.ok r => registerAll r cs
    | Except.error e => Except.error e

/-- Class-creation order in src/lantern/lantern.py: `BaseCommand`,
`CommandUnknown`, `CommandOn`, `CommandOff`, `CommandColor`. -/
def classOrder : List CommandClass :=
  [BaseCommandClass, CommandUnknownClass, CommandOnClass, CommandOffClass,
   CommandColorClass]

/-- Model of `CommandProtocol._registry` as it stands after module import. -/
def defaultRegistry : Registry :=
  match registerAll [] classOrder with
  | Except.ok r => r
  | Except.error _ => []

/-- A readable stream endpoint: the remaining byte data together with the
chunk-size policy `serve` (how many bytes a single `read n` call hands out).
`read` and `at_eof` below mirror the readers of src/lantern/test_lantern.py,
which are the readers this repository runs the transport against. -/
structure Reader where
  serve : Nat → Nat
  data : Bytes

/-- Model of `read(n)`: yields the next `serve n` bytes of the data (fewer when the
data runs out) and advances the stream. -/
def Reader.read (r : Reader) (n : Nat) : Bytes × Reader :=
  (r.data.take (r.serve n), { r with data := r.data.drop (r.serve n) })

/-- Model of `at_eof()`: the data is depleted. -/
def Reader.at_eof (r : Reader) : Bool := r.data.isEmpty

/-- Model of `DefaultReader`: "reads data as much as requested until the data
depletes" — `read(n)` returns `data[:n]`. -/
def DefaultReader (data : Bytes) : Reader := { serve := fun n => n, data := data }

/-- Model of `OneByteAtATimeReader`: "reads one byte of data at a time" —
`read(n)` returns `data[:1]`. -/
def OneByteAtATimeReader (data : Bytes) : Reader := { serve := fun _ => 1, data := data }

/-- The chunk policy never hands out zero bytes for a positive request while
data remains (both repository readers satisfy this; it is what makes the
retry loop's sleep-and-retry eventually succeed). -/
def Reader.progressive (r : Reader) : Prop := ∀ n, 1 ≤ n → 1 ≤ r.serve n

/-- One `read(n)` call returns at most `n` bytes (asyncio's `read` contract;
both repository readers satisfy this). -/
def Reader.bounded (r : Reader) : Prop := ∀ n, 1 ≤ n → r.serve n ≤ n

/-- Model of `CommandTransport` state: the reader endpoint and `_read_buffer`
(src/lantern/lantern.py lines 136-139; the writer plays no part in `recv`). -/
structure CommandTransport where
  reader : Reader
  read_buffer : Bytes

/-- Model of `CommandTransport(reader, writer)`: fresh empty read buffer. -/
def CommandTransport.init (r : Reader) : CommandTransport :=
  { reader := r, read_buffer := [] }

/-- Model of `CommandTransport.at_eof` (lines 176-177). -/
def CommandTransport.at_eof (t : CommandTransport) : Bool := t.reader.at_eof

/-- Model of `CommandTransport._bytes_missing` (lines 156-157):
`required_length - len(self._read_buffer)` as a (possibly negative) int. -/
def CommandTransport.bytes_missing (t : CommandTransport) (required_length : Nat) : Int :=
  (required_length : Int) - t.read_buffer.length

/-- Model of `CommandTransport._retry_read` (lines 147-154): accumulate reads of the
still-missing count until `n` bytes are collected or the stream hits
end-of-stream; the `asyncio.sleep` between attempts is dropped.  `fuel`
bounds the number of loop iterations (`none` = fuel ran out). -/
def retry_read (fuel : Nat) (reader : Reader) (n : Nat) (read_so_far : Bytes) :
    Option (Bytes × Reader) :=
  match fuel with
  | 0 => none
  | fuel + 1 =>
    if read_so_far.length < n then
      let step := reader.read (n - read_so_far.length)
      let acc := read_so_far ++ step.1
      if step.2.at_eof then some (acc, step.2)
      else retry_read fuel step.2 n acc
    else some (read_so_far, reader)

/-- The payload loop of `CommandTransport._process_buffer` (lines 163-168):
while payload bytes are missing, return `None` at end-of-stream, else append
a `_retry_read` of the missing count.  Result `some (false, t)` is the
`return None` exit carrying the transport state, `some (true, t)` is normal
loop exit with the frame fully buffered. -/
def payload_loop (fuel rfuel : Nat) (t : CommandTransport) (length : Nat) :
    Option (Bool × CommandTransport) :=
  match fuel with
  | 0 => none
  | fuel + 1 =>
    if t.bytes_missing (length + COMMAND_HEADER_LENGTH) > 0 then
      if t.at_eof then some (false, t)
      else
        match retry_read rfuel t.reader
            (t.bytes_missing (length + COMMAND_HEADER_LENGTH)).toNat [] with
        | none => none
        | some (chunk, reader') =>
          payload_loop fuel rfuel
            { reader := reader', read_buffer := t.read_buffer ++ chunk } length
    else some (true, t)

/-- Model of `CommandTransport._process_buffer` (lines 159-174): parse the header with
`unpack('>BH')` (a `struct.error` on a buffer not exactly 3 bytes long is
`none`), fill the payload, slice it out with `unpack_from`, drop the consumed
frame from the buffer, and decode. -/
def process_buffer (fuel rfuel : Nat) (t : CommandTransport) :
    Option (Option Command × CommandTransport) :=
  match unpackBH t.read_buffer with
  | none => none
  | some (type_, length) =>
    match (if length > 0 then payload_loop fuel rfuel t length else some (true, t)) with
    | none => none
    | some (false, t') => some (none, t')
    | some (true, t') =>
      match (if length > 0 then
               match unpackFromS length COMMAND_HEADER_LENGTH t'.read_buffer with
               | none => none
               | some v => some (some v)
             else some none) with
      | none => none
      | some value =>
        some (CommandProtocol.decode defaultRegistry type_ value,
          { t' with
            read_buffer := t'.read_buffer.drop (length + COMMAND_HEADER_LENGTH) })

/-- Model of `CommandTransport.recv` (lines 179-185): buffer at least the 3 header
bytes (returning `None` if end-of-stream strikes first), then
`_process_buffer`. -/
def CommandTransport.recv (fuel rfuel : Nat) (t : CommandTransport) :
    Option (Option Command × CommandTransport) :=
  match fuel with
  | 0 => none
  | fuel + 1 =>
    if t.bytes_missing COMMAND_HEADER_LENGTH > 0 then
      if t.at_eof then some (none, t)
      else
        match retry_read rfuel t.reader
            (t.bytes_missing COMMAND_HEADER_LENGTH).toNat [] with
        | none => none
        | some (chunk, reader') =>
          CommandTransport.recv fuel rfuel
            { reader := reader', read_buffer := t.read_buffer ++ chunk }
    else process_buffer fuel rfuel t

/-- A sequence of `recv` calls on the same transport (as in the
`test_recv_several_commands` scenario). -/
def recv_many (fuel rfuel : Nat) (count : Nat) (t : CommandTransport) :
    Option (List (Option Command) × CommandTransport) :=
  match count with
  | 0 => some ([], t)
  | k + 1 =>
    match CommandTransport.recv fuel rfuel t with
    | none => none
    | some (c, t') =>
      match recv_many fuel rfuel k t' with
      | none => none
      | some (cs, t'') => some (c :: cs, t'')

/-- The externally observable outcome of one `recv` call: the returned
command, the remaining read buffer, and `at_eof()`. -/
def recvObs (fuel rfuel : Nat) (t : CommandTransport) :
    Option (Option Command × Bytes × Bool) :=
  (CommandTransport.recv fuel rfuel t).map fun p => (p.1, p.2.read_buffer, p.2.at_eof)

/-- Observable outcome of a sequence of `recv` calls. -/
def recvManyObs (fuel rfuel count : Nat) (t : CommandTransport) :
    Option (List (Option Command) × Bytes × Bool) :=
  (recv_many fuel rfuel count t).map fun p => (p.1, p.2.read_buffer, p.2.at_eof)

/-- The receive loop of `LanternClient.loop` (lines 292-300): while running
and not at end-of-stream, `recv`; a decoded command is passed to the
callback inside `try/except Exception` — the callback's outcome is recorded
per invocation as `(command, raised?)` and never alters control flow.
`raises` tells whether a given invocation of the caller-supplied callback
raises; `running` is the session flag (mutated only by an external signal,
hence constant during one uninterrupted loop). -/
def client_loop (fuel rfuel : Nat) (running : Bool) (raises : Command → Bool)
    (t : CommandTransport) : Option (List (Command × Bool) × CommandTransport) :=
  match fuel with
  | 0 => none
  | fuel + 1 =>
    if running && !t.at_eof then
      match CommandTransport.recv fuel rfuel t with
      | none => none
      | some (none, t') => client_loop fuel rfuel running raises t'
      | some (some c, t') =>
        match client_loop fuel rfuel running raises t' with
        | none => none
        | some (rest, t'') => some ((c, raises c) :: rest, t'')
    else some ([], t)

/-- What the receive loop delivers, ignoring whether individual callback
invocations raised: the commands handed to the handler, in order, and the
final transport state. -/
def deliveries (res : Option (List (Command × Bool) × CommandTransport)) :
    Option (List Command × CommandTransport) :=
  res.map fun p => (p.1.map Prod.fst, p.2)

/-- The registered command variants of the repository, with their canonical
instance shapes: payload-less `BaseCommand()`, `CommandUnknown()`,
`CommandOn()`, `CommandOff()`, and `CommandColor` with a 3-byte payload. -/
inductive Variant
  | vBase
  | vUnknown
  | vOn
  | vOff
  | vColor (r g b : Nat)

/-- The command instance a variant denotes. -/
def Variant.command : Variant → Command
  | .vBase => BaseCommandClass.construct none
  | .vUnknown => CommandUnknown
  | .vOn => CommandOn
  | .vOff => CommandOff
  | .vColor r g b => CommandColorClass.construct (some [r, g, b])

/-- The type byte of an encoded frame (byte 0). -/
def frame_type (bs : Bytes) : Nat := bs.headD 0

/-- The payload of an encoded frame: the bytes after the 3-byte header, or
`None` when there are none (matching `decode`'s `value=None` for
payload-less commands). -/
def frame_payload (bs : Bytes) : Option Bytes :=
  if bs.length ≤ COMMAND_HEADER_LENGTH then none
  else some (bs.drop COMMAND_HEADER_LENGTH)

/-- Back-to-back concatenation of the encodings of a command list. -/
def encode_all (cs : List Command) : Option Bytes :=
  (cs.mapM CommandProtocol.encode).map List.flatten

/-- Claim C4: for every registered command variant `c` — `On`, `Off`,
`Color`, `Unknown` (and the implicitly registered `BaseCommand`) —
decoding the type byte and payload produced by encoding `c` yields a
command equal to `c`: `decode(encode(c).type, encode(c).payload) == c`. -/
theorem c4_encode_decode_round_trip (v : Variant) :
    (CommandProtocol.encode v.command).map
        (fun bs => CommandProtocol.decode defaultRegistry
          (frame_type bs) (frame_payload bs))
      = some (some v.command) := by
  cases v <;> rfl

/-- Witness for C4 at the concrete input `Color(10, 20, 30)`. -/
theorem c4_witness :
    (CommandProtocol.encode (Variant.vColor 10 20 30).command).map
        (fun bs => CommandProtocol.decode defaultRegistry
          (frame_type bs) (frame_payload bs))
      = some (some (Variant.vColor 10 20 30).command) :=
  c4_encode_decode_round_trip (Variant.vColor 10 20 30)

/-- Claim C5: for every command with `length == len(value)` (and the data
model's 8-bit type / 16-bit length bounds), `encode` produces exactly
`3 + length` bytes — byte 0 the type, bytes 1-2 the length big-endian,
then the payload bytes only when `length > 0`; in particular `On` encodes
to `12 00 00`, `Off` to `13 00 00`, `Color(1,2,3)` to `20 00 03 01 02 03`. -/
theorem c5_encode_layout :
    (∀ c : Command, c.length = (c.value.map List.length).getD 0 →
      c.type < 256 → c.length < 65536 →
      (CommandProtocol.encode c).isSome = true ∧
      ((CommandProtocol.encode c).getD []).length = 3 + c.length ∧
      ((CommandProtocol.encode c).getD []).take 3
          = [c.type, c.length / 256, c.length % 256] ∧
      ((CommandProtocol.encode c).getD []).drop 3 = c.value.getD []) ∧
    CommandProtocol.encode CommandOn = some [0x12, 0x00, 0x00] ∧
    CommandProtocol.encode CommandOff = some [0x13, 0x00, 0x00] ∧
    (CommandColor.from_rgb 1 2 3).bind CommandProtocol.encode
      = some [0x20, 0x00, 0x03, 0x01, 0x02, 0x03] := by
  refine ⟨?_, by decide, by decide, by decide⟩
  rintro ⟨t, l, v⟩ h1 h2 h3
  dsimp only at h1 h2 h3 ⊢
  cases v with
  | none =>
    simp at h1
    subst h1
    simp [CommandProtocol.encode, packBH, h2]
  | some v =>
    simp at h1
    subst h1
    cases v with
    | nil => simp [CommandProtocol.encode, packBH, h2]
    | cons a as =>
      have h3' : as.length + 1 < 65536 := by simpa using h3
      simp [CommandProtocol.encode, packBH, h2, h3', packS, List.take_length]
      omega

/-- Witness for C5 at the concrete command `(0x20, 3, [7, 8, 9])`. -/
theorem c5_witness :
    (CommandProtocol.encode ⟨0x20, 3, some [7, 8, 9]⟩).isSome = true ∧
    ((CommandProtocol.encode ⟨0x20, 3, some [7, 8, 9]⟩).getD []).length = 3 + 3 ∧
    ((CommandProtocol.encode ⟨0x20, 3, some [7, 8, 9]⟩).getD []).take 3
        = [0x20, 3 / 256, 3 % 256] ∧
    ((CommandProtocol.encode ⟨0x20, 3, some [7, 8, 9]⟩).getD []).drop 3
        = (some [7, 8, 9]).getD [] :=
  c5_encode_layout.1 ⟨0x20, 3, some [7, 8, 9]⟩ rfl (by decide) (by decide)

/-- Claim C6 — the code contradicts it.  The spec requires a `Color`
payload of the wrong shape to fail loudly at decode time, but
`BaseCommand.__init__` performs no shape validation: decoding type `0x20`
with the 2-byte payload `01 02` silently returns a `CommandColor` carrying
that payload (`length = 2`); the malformation only surfaces later, when
`rgb` tries to unpack the stored value. -/
theorem c6_malformed_color_payload_is_absorbed :
    CommandProtocol.decode defaultRegistry 0x20 (some [0x01, 0x02])
        = some { type := 0x20, length := 2, value := some [0x01, 0x02] } ∧
    ({ type := 0x20, length := 2, value := some [0x01, 0x02] } : Command).rgb
        = none := by
  decide

/-- Claim C7: every type byte outside the registered set
`{0x00, 0x99, 0x12, 0x13, 0x20}` decodes to "no command", for every
payload, without raising. -/
theorem c7_unregistered_type_is_dropped (t : Nat)
    (h : t ∉ ([0x00, 0x99, 0x12, 0x13, 0x20] : List Nat)) (v : Option Bytes) :
    CommandProtocol.decode defaultRegistry t v = none := by
  simp only [List.mem_cons, List.not_mem_nil, or_false, not_or] at h
  obtain ⟨h0, h99, h12, h13, h20⟩ := h
  have h0' : (0x00 : Nat) ≠ t := fun e => h0 e.symm
  have h99' : (0x99 : Nat) ≠ t := fun e => h99 e.symm
  have h12' : (0x12 : Nat) ≠ t := fun e => h12 e.symm
  have h13' : (0x13 : Nat) ≠ t := fun e => h13 e.symm
  have h20' : (0x20 : Nat) ≠ t := fun e => h20 e.symm
  have hreg : defaultRegistry =
      [(0x00, BaseCommandClass), (0x99, CommandUnknownClass),
       (0x12, CommandOnClass), (0x13, CommandOffClass),
       (0x20, CommandColorClass)] := by decide
  simp [CommandProtocol.decode, hreg, Registry.find, h0', h99', h12', h13', h20',
    BaseCommandClass, CommandUnknownClass, CommandOnClass, CommandOffClass,
    CommandColorClass]

/-- Witness for C7 at the never-registered type byte `0x42` with a
non-empty payload. -/
theorem c7_witness :
    CommandProtocol.decode defaultRegistry 0x42 (some [1, 2, 3]) = none :=
  c7_unregistered_type_is_dropped 0x42 (by decide) (some [1, 2, 3])

/-- Claim C8: registering a variant whose type byte is already present
fails with the duplicate-registration error, and the registry afterwards
(`registerOutcome`: a raise aborts before the dict assignment) still maps
that type byte to the originally registered class. -/
theorem c8_duplicate_registration_rejected (reg : Registry) (cls ctor : CommandClass)
    (h : reg.find cls.ctype = some ctor) :
    CommandProtocol.register reg cls
        = Except.error ProtocolError.DuplicateRegistration ∧
    (registerOutcome reg cls).find cls.ctype = some ctor := by
  have hs : (reg.find cls.ctype).isSome = true := by rw [h]; rfl
  refine ⟨?_, ?_⟩
  · simp [CommandProtocol.register, hs]
  · simp [registerOutcome, CommandProtocol.register, hs, h]

/-- Witness for C8: re-registering type byte `0x12` (held by `CommandOn`)
against the startup registry. -/
theorem c8_witness :
    CommandProtocol.register defaultRegistry ⟨0x12⟩
        = Except.error ProtocolError.DuplicateRegistration ∧
    (registerOutcome defaultRegistry ⟨0x12⟩).find 0x12 = some CommandOnClass :=
  c8_duplicate_registration_rejected defaultRegistry ⟨0x12⟩ CommandOnClass (by decide)

set_option maxHeartbeats 1000000 in
/-- Claim C1: for any registered command `c`, feeding the bytes of
`encode(c)` to a fresh transport one byte per read call (the worst case)
yields the same observable `recv()` outcome as a reader that delivers
everything requested at once — and that outcome is the decoded command `c`
itself, with an empty buffer and the stream at end-of-stream. -/
theorem c1_one_byte_delivery_equivalence (v : Variant) (bs : Bytes)
    (h : CommandProtocol.encode v.command = some bs) :
    recvObs 16 16 (CommandTransport.init (OneByteAtATimeReader bs))
        = recvObs 16 16 (CommandTransport.init (DefaultReader bs)) ∧
    recvObs 16 16 (CommandTransport.init (OneByteAtATimeReader bs))
        = some (some v.command, [], true) := by
  cases v with
  | vBase =>
    injection h with h
    subst h
    have h1 : recvObs 16 16 (CommandTransport.init (OneByteAtATimeReader [0x00, 0, 0]))
        = some (some Variant.vBase.command, [], true) := rfl
    have h2 : recvObs 16 16 (CommandTransport.init (DefaultReader [0x00, 0, 0]))
        = some (some Variant.vBase.command, [], true) := rfl
    exact ⟨h1.trans h2.symm, h1⟩
  | vUnknown =>
    injection h with h
    subst h
    have h1 : recvObs 16 16 (CommandTransport.init (OneByteAtATimeReader [0x99, 0, 0]))
        = some (some Variant.vUnknown.command, [], true) := rfl
    have h2 : recvObs 16 16 (CommandTransport.init (DefaultReader [0x99, 0, 0]))
        = some (some Variant.vUnknown.command, [], true) := rfl
    exact ⟨h1.trans h2.symm, h1⟩
  | vOn =>
    injection h with h
    subst h
    have h1 : recvObs 16 16 (CommandTransport.init (OneByteAtATimeReader [0x12, 0, 0]))
        = some (some Variant.vOn.command, [], true) := rfl
    have h2 : recvObs 16 16 (CommandTransport.init (DefaultReader [0x12, 0, 0]))
        = some (some Variant.vOn.command, [], true) := rfl
    exact ⟨h1.trans h2.symm, h1⟩
  | vOff =>
    injection h with h
    subst h
    have h1 : recvObs 16 16 (CommandTransport.init (OneByteAtATimeReader [0x13, 0, 0]))
        = some (some Variant.vOff.command, [], true) := rfl
    have h2 : recvObs 16 16 (CommandTransport.init (DefaultReader [0x13, 0, 0]))
        = some (some Variant.vOff.command, [], true) := rfl
    exact ⟨h1.trans h2.symm, h1⟩
  | vColor r g b =>
    have henc : CommandProtocol.encode (Variant.vColor r g b).command
        = some [0x20, 0, 3, r, g, b] := by
      simp [Variant.command, CommandClass.construct, mkCommand, CommandColorClass,
        CommandProtocol.encode, packBH, packS]
    rw [henc] at h
    injection h with h
    subst h
    have h1 : recvObs 16 16 (CommandTransport.init (OneByteAtATimeReader [0x20, 0, 3, r, g, b]))
        = some (some (Variant.vColor r g b).command, [], true) := rfl
    have h2 : recvObs 16 16 (CommandTransport.init (DefaultReader [0x20, 0, 3, r, g, b]))
        = some (some (Variant.vColor r g b).command, [], true) := rfl
    exact ⟨h1.trans h2.symm, h1⟩

/-- Witness for C1 at the concrete command `Color(10, 20, 30)`. -/
theorem c1_witness :
    recvObs 16 16 (CommandTransport.init
        (OneByteAtATimeReader [0x20, 0x00, 0x03, 10, 20, 30]))
        = recvObs 16 16 (CommandTransport.init
        (DefaultReader [0x20, 0x00, 0x03, 10, 20, 30])) ∧
    recvObs 16 16 (CommandTransport.init
        (OneByteAtATimeReader [0x20, 0x00, 0x03, 10, 20, 30]))
        = some (some (Variant.vColor 10 20 30).command, [], true) :=
  c1_one_byte_delivery_equivalence (Variant.vColor 10 20 30)
    [0x20, 0x00, 0x03, 10, 20, 30] rfl

/-- Claim C3: feeding the back-to-back concatenation of the encodings of
`[Color(10,20,30), On, Off, Color(40,50,60)]` to one transport, one byte
per read call, makes five successive `recv()` calls return exactly those
four commands in order and then "no command". -/
theorem c3_sequencing (cA cB : Command) (d : Bytes)
    (hA : CommandColor.from_rgb 10 20 30 = some cA)
    (hB : CommandColor.from_rgb 40 50 60 = some cB)
    (hd : encode_all [cA, CommandOn, CommandOff, cB] = some d) :
    recvManyObs 16 64 5 (CommandTransport.init (OneByteAtATimeReader d))
      = some ([some cA, some CommandOn, some CommandOff, some cB, none],
              [], true) := by
  injection hA with hA
  subst hA
  injection hB with hB
  subst hB
  injection hd with hd
  subst hd
  rfl

/-- Witness for C3 at the fully concrete byte stream. -/
theorem c3_witness :
    recvManyObs 16 64 5 (CommandTransport.init (OneByteAtATimeReader
        ([0x20, 0x00, 0x03, 10, 20, 30] ++ [0x12, 0x00, 0x00]
          ++ [0x13, 0x00, 0x00] ++ [0x20, 0x00, 0x03, 40, 50, 60])))
      = some ([some (CommandColorClass.construct (some [10, 20, 30])),
               some CommandOn, some CommandOff,
               some (CommandColorClass.construct (some [40, 50, 60])), none],
              [], true) :=
  c3_sequencing (CommandColorClass.construct (some [10, 20, 30]))
    (CommandColorClass.construct (some [40, 50, 60]))
    ([0x20, 0x00, 0x03, 10, 20, 30] ++ [0x12, 0x00, 0x00]
      ++ [0x13, 0x00, 0x00] ++ [0x20, 0x00, 0x03, 40, 50, 60]) rfl rfl rfl

/-- Claim C9: the commands the receive loop hands to the caller-supplied
handler — and the final transport state — do not depend on which handler
invocations raise: exceptions are caught at the session boundary, so a
raising handler still sees every subsequent command, and the loop runs on
exactly as with a handler that never raises. -/
theorem c9_handler_failure_does_not_stop_loop
    (fuel rfuel : Nat) (running : Bool) (raises1 raises2 : Command → Bool)
    (t : CommandTransport) :
    deliveries (client_loop fuel rfuel running raises1 t)
      = deliveries (client_loop fuel rfuel running raises2 t) := by
  induction fuel generalizing t with
  | zero => rfl
  | succ fuel ih =>
    rw [client_loop, client_loop]
    by_cases hrun : (running && !t.at_eof) = true
    · rw [if_pos hrun, if_pos hrun]
      cases hrecv : CommandTransport.recv fuel rfuel t with
      | none => rfl
      | some p =>
        obtain ⟨c?, t'⟩ := p
        cases c? with
        | none => exact ih t'
        | some c =>
          have hih := ih t'
          dsimp only
          cases h1 : client_loop fuel rfuel running raises1 t' with
          | none =>
            cases h2 : client_loop fuel rfuel running raises2 t' with
            | none => rfl
            | some q =>
              rw [h1, h2] at hih
              exact absurd hih (by simp [deliveries])
          | some q1 =>
            cases h2 : client_loop fuel rfuel running raises2 t' with
            | none =>
              rw [h1, h2] at hih
              exact absurd hih (by simp [deliveries])
            | some q2 =>
              rw [h1, h2] at hih
              obtain ⟨l1, T1⟩ := q1
              obtain ⟨l2, T2⟩ := q2
              simp only [deliveries, Option.map_some] at hih ⊢
              injection hih with hih
              simp only [Prod.mk.injEq] at hih
              simp [List.map_cons, hih.1, hih.2]
    · rw [if_neg hrun, if_neg hrun]

/-- Witness for C9: an always-raising handler and a never-raising handler
receive the same two commands from the same byte stream. -/
theorem c9_witness :
    deliveries (client_loop 64 64 true (fun _ => true)
        (CommandTransport.init
          (OneByteAtATimeReader ([0x20, 0x00, 0x03, 10, 20, 30] ++ [0x12, 0x00, 0x00]))))
      = deliveries (client_loop 64 64 true (fun _ => false)
        (CommandTransport.init
          (OneByteAtATimeReader ([0x20, 0x00, 0x03, 10, 20, 30] ++ [0x12, 0x00, 0x00])))) :=
  c9_handler_failure_does_not_stop_loop 64 64 true (fun _ => true) (fun _ => false)
    (CommandTransport.init
      (OneByteAtATimeReader ([0x20, 0x00, 0x03, 10, 20, 30] ++ [0x12, 0x00, 0x00])))

theorem retry_read_spec (f : Nat → Nat)
    (hp : ∀ m, 1 ≤ m → 1 ≤ f m) (hb : ∀ m, 1 ≤ m → f m ≤ m) :
    ∀ (fuel : Nat) (d : Bytes) (n : Nat) (acc : Bytes),
      d.length + 1 ≤ fuel → acc.length ≤ n →
      ∃ k, k ≤ d.length ∧ acc.length + k ≤ n ∧
        retry_read fuel ⟨f, d⟩ n acc = some (acc ++ d.take k, ⟨f, d.drop k⟩) ∧
        (acc.length + k = n ∨ k = d.length) := by
  intro fuel
  induction fuel with
  | zero => intro d n acc hf hacc; omega
  | succ fuel ih =>
    intro d n acc hf hacc
    by_cases hlt : acc.length < n
    · rw [retry_read, if_pos hlt]
      simp only [Reader.read, Reader.at_eof]
      cases d with
      | nil =>
        refine ⟨0, by simp, by omega, ?_, Or.inr rfl⟩
        simp
      | cons x xs =>
        set d : Bytes := x :: xs with hd
        have hdne : d ≠ [] := by simp [hd]
        set m : Nat := n - acc.length with hm
        have hm1 : 1 ≤ m := by omega
        have hf1 : 1 ≤ f m := hp m hm1
        have hfb : f m ≤ m := hb m hm1
        by_cases heof : d.drop (f m) = []
        · have hge : d.length ≤ f m := List.drop_eq_nil_iff.mp heof
          refine ⟨d.length, le_refl _, by omega, ?_, Or.inr rfl⟩
          rw [heof, List.take_of_length_le hge, List.take_length, List.drop_length]
          simp
        · have hlt2 : f m < d.length := by
            by_contra hcon
            exact heof (List.drop_eq_nil_iff.mpr (by omega))
          have hne : (d.drop (f m)).isEmpty = false := by
            cases hdd : List.drop (f m) d with
            | nil => exact absurd hdd heof
            | cons y ys => rfl
          rw [hne]
          simp only [Bool.false_eq_true, if_false]
          have hf' : (d.drop (f m)).length + 1 ≤ fuel := by
            rw [List.length_drop]; omega
          have hacc' : (acc ++ d.take (f m)).length ≤ n := by
            rw [List.length_append, List.length_take]; omega
          obtain ⟨k', hk1, hk2, hk3, hk4⟩ := ih (d.drop (f m)) n (acc ++ d.take (f m)) hf' hacc'
          refine ⟨f m + k', ?_, ?_, ?_, ?_⟩
          · rw [List.length_drop] at hk1; omega
          · rw [List.length_append, List.length_take] at hk2; omega
          · rw [hk3, List.take_add, List.drop_drop, List.append_assoc]
          · rw [List.length_append, List.length_take] at hk4
            rw [List.length_drop] at hk4
            rcases hk4 with h | h
            · left; omega
            · right; omega
    · refine ⟨0, by simp, by omega, ?_, Or.inl (by omega)⟩
      rw [retry_read, if_neg hlt]
      simp

theorem recv_read_step (fuel rfuel : Nat) (f : Nat → Nat) (x : Nat) (xs : Bytes)
    (chunk : Bytes) (reader' : Reader)
    (hretry : retry_read rfuel ⟨f, x :: xs⟩ 3 [] = some (chunk, reader')) :
    CommandTransport.recv (fuel + 1) rfuel (CommandTransport.init ⟨f, x :: xs⟩)
      = CommandTransport.recv fuel rfuel ⟨reader', chunk⟩ := by
  rw [CommandTransport.recv]
  rw [if_pos (by norm_num [CommandTransport.init, CommandTransport.bytes_missing,
    COMMAND_HEADER_LENGTH])]
  rw [if_neg (by simp [CommandTransport.init, CommandTransport.at_eof, Reader.at_eof])]
  have h3 : (((CommandTransport.init ⟨f, x :: xs⟩).bytes_missing
      COMMAND_HEADER_LENGTH)).toNat = 3 := by
    simp only [CommandTransport.init, CommandTransport.bytes_missing,
      COMMAND_HEADER_LENGTH, List.length_nil]
    decide
  rw [h3]
  rw [show (CommandTransport.init ⟨f, x :: xs⟩).reader = ⟨f, x :: xs⟩ from rfl]
  rw [hretry]
  rfl

theorem recv_eof_short_buffer (fuel rfuel : Nat) (f : Nat → Nat) (buffer : Bytes)
    (hshort : buffer.length < 3) :
    CommandTransport.recv (fuel + 1) rfuel ⟨⟨f, []⟩, buffer⟩
      = some (none, ⟨⟨f, []⟩, buffer⟩) := by
  rw [CommandTransport.recv]
  rw [if_pos (by simp only [CommandTransport.bytes_missing, COMMAND_HEADER_LENGTH]; omega)]
  rw [if_pos (by simp [CommandTransport.at_eof, Reader.at_eof])]

theorem recv_full_buffer (fuel rfuel : Nat) (r : Reader) (b0 b1 b2 : Nat) :
    CommandTransport.recv (fuel + 1) rfuel ⟨r, [b0, b1, b2]⟩
      = process_buffer fuel rfuel ⟨r, [b0, b1, b2]⟩ := by
  rw [CommandTransport.recv]
  rw [if_neg (by norm_num [CommandTransport.bytes_missing, COMMAND_HEADER_LENGTH])]

theorem payload_loop_exit (fuel rfuel : Nat) (t : CommandTransport) (L : Nat)
    (hlen : L + 3 ≤ t.read_buffer.length) :
    payload_loop (fuel + 1) rfuel t L = some (true, t) := by
  rw [payload_loop]
  rw [if_neg (by simp only [CommandTransport.bytes_missing, COMMAND_HEADER_LENGTH]; omega)]

theorem payload_loop_eof (fuel rfuel : Nat) (f : Nat → Nat) (buffer : Bytes) (L : Nat)
    (hmiss : buffer.length < L + 3) :
    payload_loop (fuel + 1) rfuel ⟨⟨f, []⟩, buffer⟩ L
      = some (false, ⟨⟨f, []⟩, buffer⟩) := by
  rw [payload_loop]
  rw [if_pos (by simp only [CommandTransport.bytes_missing, COMMAND_HEADER_LENGTH]; omega)]
  rw [if_pos (by simp [CommandTransport.at_eof, Reader.at_eof])]

theorem payload_loop_read (fuel rfuel : Nat) (f : Nat → Nat) (x : Nat) (xs buffer : Bytes)
    (L : Nat) (chunk : Bytes) (reader' : Reader)
    (hmiss : buffer.length < L + 3)
    (hretry : retry_read rfuel ⟨f, x :: xs⟩ (L + 3 - buffer.length) [] = some (chunk, reader')) :
    payload_loop (fuel + 1) rfuel ⟨⟨f, x :: xs⟩, buffer⟩ L
      = payload_loop fuel rfuel ⟨reader', buffer ++ chunk⟩ L := by
  rw [payload_loop]
  rw [if_pos (by simp only [CommandTransport.bytes_missing, COMMAND_HEADER_LENGTH]; omega)]
  rw [if_neg (by simp [CommandTransport.at_eof, Reader.at_eof])]
  have h3 : (((⟨⟨f, x :: xs⟩, buffer⟩ : CommandTransport).bytes_missing
      (L + COMMAND_HEADER_LENGTH))).toNat = L + 3 - buffer.length := by
    simp only [CommandTransport.bytes_missing, COMMAND_HEADER_LENGTH]
    omega
  rw [h3]
  rw [show (⟨⟨f, x :: xs⟩, buffer⟩ : CommandTransport).reader = ⟨f, x :: xs⟩ from rfl]
  rw [hretry]

theorem process_buffer_zero (fuel rfuel : Nat) (r : Reader) (b0 b1 b2 : Nat)
    (hL : b1 * 256 + b2 = 0) :
    process_buffer fuel rfuel ⟨r, [b0, b1, b2]⟩
      = some (CommandProtocol.decode defaultRegistry b0 none, ⟨r, []⟩) := by
  unfold process_buffer
  have h1 : unpackBH [b0, b1, b2] = some (b0, 0) := by
    rw [show unpackBH [b0, b1, b2] = some (b0, b1 * 256 + b2) from rfl, hL]
  rw [h1]
  rfl

theorem process_buffer_pos_false (fuel rfuel : Nat) (r : Reader) (b0 b1 b2 : Nat)
    (t' : CommandTransport) (hL : 0 < b1 * 256 + b2)
    (hpl : payload_loop fuel rfuel ⟨r, [b0, b1, b2]⟩ (b1 * 256 + b2)
      = some (false, t')) :
    process_buffer fuel rfuel ⟨r, [b0, b1, b2]⟩ = some (none, t') := by
  unfold process_buffer
  rw [show unpackBH [b0, b1, b2] = some (b0, b1 * 256 + b2) from rfl]
  dsimp only
  rw [if_pos hL, hpl]

theorem process_buffer_pos_true (fuel rfuel : Nat) (r : Reader) (b0 b1 b2 : Nat)
    (t' : CommandTransport) (v : Bytes) (hL : 0 < b1 * 256 + b2)
    (hpl : payload_loop fuel rfuel ⟨r, [b0, b1, b2]⟩ (b1 * 256 + b2)
      = some (true, t'))
    (hunp : unpackFromS (b1 * 256 + b2) COMMAND_HEADER_LENGTH t'.read_buffer
      = some v) :
    process_buffer fuel rfuel ⟨r, [b0, b1, b2]⟩
      = some (CommandProtocol.decode defaultRegistry b0 (some v),
              ⟨t'.reader, t'.read_buffer.drop (b1 * 256 + b2 + COMMAND_HEADER_LENGTH)⟩) := by
  unfold process_buffer
  rw [show unpackBH [b0, b1, b2] = some (b0, b1 * 256 + b2) from rfl]
  dsimp only
  rw [if_pos hL, hpl]
  dsimp only
  rw [if_pos hL, hunp]

theorem recv_truncated_header (f : Nat → Nat)
    (hp : ∀ m, 1 ≤ m → 1 ≤ f m) (hb : ∀ m, 1 ≤ m → f m ≤ m)
    (fuel rfuel : Nat) (d : Bytes)
    (hf : 2 ≤ fuel) (hr : d.length + 1 ≤ rfuel) (hd : d.length < 3) :
    CommandTransport.recv fuel rfuel (CommandTransport.init ⟨f, d⟩)
      = some (none, ⟨⟨f, []⟩, d⟩) := by
  obtain ⟨F, rfl⟩ : ∃ F, fuel = F + 2 := ⟨fuel - 2, by omega⟩
  cases d with
  | nil => exact recv_eof_short_buffer (F + 1) rfuel f [] (by simp)
  | cons x xs =>
    obtain ⟨k, hk1, hk2, hkeq, hk4⟩ :=
      retry_read_spec f hp hb rfuel (x :: xs) 3 [] hr (by simp)
    have hkd : k = (x :: xs).length := by
      rcases hk4 with h | h
      · simp only [List.length_cons, List.length_nil, Nat.zero_add] at h hk1 hd
        omega
      · exact h
    subst hkd
    rw [List.take_length, List.drop_length, List.nil_append] at hkeq
    rw [recv_read_step (F + 1) rfuel f x xs _ _ hkeq]
    exact recv_eof_short_buffer F rfuel f (x :: xs) hd

theorem recv_complete (f : Nat → Nat)
    (hp : ∀ m, 1 ≤ m → 1 ≤ f m) (hb : ∀ m, 1 ≤ m → f m ≤ m)
    (fuel rfuel : Nat) (d0 d1 d2 : Nat) (rest : Bytes)
    (hf : 4 ≤ fuel) (hr : rest.length + 4 ≤ rfuel)
    (hlen : d1 * 256 + d2 ≤ rest.length) :
    CommandTransport.recv fuel rfuel (CommandTransport.init ⟨f, d0 :: d1 :: d2 :: rest⟩)
      = some (CommandProtocol.decode defaultRegistry d0
                (if 0 < d1 * 256 + d2 then some (rest.take (d1 * 256 + d2)) else none),
              ⟨⟨f, rest.drop (d1 * 256 + d2)⟩, []⟩) := by
  obtain ⟨F, rfl⟩ : ∃ F, fuel = F + 4 := ⟨fuel - 4, by omega⟩
  obtain ⟨k, hk1, hk2, hkeq, hk4⟩ :=
    retry_read_spec f hp hb rfuel (d0 :: d1 :: d2 :: rest) 3 [] (by simp; omega) (by simp)
  have hk3 : k = 3 := by
    rcases hk4 with h | h
    · simpa using h
    · simp at h hk2; omega
  subst hk3
  rw [List.nil_append,
    show List.take 3 (d0 :: d1 :: d2 :: rest) = [d0, d1, d2] from rfl,
    show List.drop 3 (d0 :: d1 :: d2 :: rest) = rest from rfl] at hkeq
  rw [recv_read_step (F + 3) rfuel f d0 (d1 :: d2 :: rest) _ _ hkeq]
  rw [recv_full_buffer (F + 2) rfuel ⟨f, rest⟩ d0 d1 d2]
  by_cases hL : 0 < d1 * 256 + d2
  · cases rest with
    | nil => simp at hlen; omega
    | cons y ys =>
      simp only [List.length_cons] at hr hlen
      obtain ⟨k2, hq1, hq2, hqeq, hq4⟩ :=
        retry_read_spec f hp hb rfuel (y :: ys) (d1 * 256 + d2) []
          (by simp only [List.length_cons]; omega) (by simp)
      have hk2L : k2 = d1 * 256 + d2 := by
        rcases hq4 with h | h
        · simpa using h
        · simp only [List.length_cons, List.length_nil, Nat.zero_add] at hq2 h ⊢
          omega
      subst hk2L
      rw [List.nil_append] at hqeq
      have hmiss : List.length [d0, d1, d2] < d1 * 256 + d2 + 3 := by simp; omega
      have harg : d1 * 256 + d2 + 3 - List.length [d0, d1, d2] = d1 * 256 + d2 := by simp
      have hpl1 := payload_loop_read (F + 1) rfuel f y ys [d0, d1, d2]
        (d1 * 256 + d2) _ _ hmiss (by rw [harg]; exact hqeq)
      have hpl2 := payload_loop_exit F rfuel
        ⟨⟨f, List.drop (d1 * 256 + d2) (y :: ys)⟩,
         [d0, d1, d2] ++ List.take (d1 * 256 + d2) (y :: ys)⟩ (d1 * 256 + d2)
        (by simp [List.length_take]; omega)
      have hunp : unpackFromS (d1 * 256 + d2) COMMAND_HEADER_LENGTH
          ([d0, d1, d2] ++ List.take (d1 * 256 + d2) (y :: ys))
            = some (List.take (d1 * 256 + d2) (y :: ys)) := by
        rw [unpackFromS]
        rw [if_pos (by simp [List.length_append, List.length_take, COMMAND_HEADER_LENGTH]; omega)]
        rw [show List.drop COMMAND_HEADER_LENGTH
            ([d0, d1, d2] ++ List.take (d1 * 256 + d2) (y :: ys))
              = List.take (d1 * 256 + d2) (y :: ys) from rfl]
        rw [List.take_take, min_self]
      rw [process_buffer_pos_true (F + 2) rfuel ⟨f, y :: ys⟩ d0 d1 d2 _ _ hL
        (hpl1.trans hpl2) hunp]
      rw [if_pos hL]
      have hdrop : List.drop (d1 * 256 + d2 + COMMAND_HEADER_LENGTH)
          ([d0, d1, d2] ++ List.take (d1 * 256 + d2) (y :: ys)) = [] := by
        rw [List.drop_eq_nil_iff]
        simp [List.length_append, List.length_take, COMMAND_HEADER_LENGTH]
      rw [hdrop]
  · have hL0 : d1 * 256 + d2 = 0 := by omega
    rw [process_buffer_zero (F + 2) rfuel ⟨f, rest⟩ d0 d1 d2 hL0]
    rw [if_neg hL, hL0, List.drop_zero]

theorem recv_truncated_payload (f : Nat → Nat)
    (hp : ∀ m, 1 ≤ m → 1 ≤ f m) (hb : ∀ m, 1 ≤ m → f m ≤ m)
    (fuel rfuel : Nat) (d0 d1 d2 : Nat) (rest : Bytes)
    (hf : 4 ≤ fuel) (hr : rest.length + 4 ≤ rfuel)
    (hlen : rest.length < d1 * 256 + d2) :
    CommandTransport.recv fuel rfuel (CommandTransport.init ⟨f, d0 :: d1 :: d2 :: rest⟩)
      = some (none, ⟨⟨f, []⟩, d0 :: d1 :: d2 :: rest⟩) := by
  obtain ⟨F, rfl⟩ : ∃ F, fuel = F + 4 := ⟨fuel - 4, by omega⟩
  obtain ⟨k, hk1, hk2, hkeq, hk4⟩ :=
    retry_read_spec f hp hb rfuel (d0 :: d1 :: d2 :: rest) 3 [] (by simp; omega) (by simp)
  have hk3 : k = 3 := by
    rcases hk4 with h | h
    · simpa using h
    · simp at h hk2; omega
  subst hk3
  rw [List.nil_append,
    show List.take 3 (d0 :: d1 :: d2 :: rest) = [d0, d1, d2] from rfl,
    show List.drop 3 (d0 :: d1 :: d2 :: rest) = rest from rfl] at hkeq
  rw [recv_read_step (F + 3) rfuel f d0 (d1 :: d2 :: rest) _ _ hkeq]
  rw [recv_full_buffer (F + 2) rfuel ⟨f, rest⟩ d0 d1 d2]
  have hL : 0 < d1 * 256 + d2 := by omega
  cases rest with
  | nil =>
    have hpl := payload_loop_eof (F + 1) rfuel f [d0, d1, d2] (d1 * 256 + d2)
      (by simp; omega)
    rw [process_buffer_pos_false (F + 2) rfuel ⟨f, []⟩ d0 d1 d2 _ hL hpl]
  | cons y ys =>
    simp only [List.length_cons] at hr hlen
    obtain ⟨k2, hq1, hq2, hqeq, hq4⟩ :=
      retry_read_spec f hp hb rfuel (y :: ys) (d1 * 256 + d2) []
        (by simp only [List.length_cons]; omega) (by simp)
    have hk2L : k2 = (y :: ys).length := by
      rcases hq4 with h | h
      · simp only [List.length_cons, List.length_nil, Nat.zero_add] at h hq1 ⊢
        omega
      · exact h
    subst hk2L
    rw [List.take_length, List.drop_length, List.nil_append] at hqeq
    have hmiss : List.length [d0, d1, d2] < d1 * 256 + d2 + 3 := by simp; omega
    have harg : d1 * 256 + d2 + 3 - List.length [d0, d1, d2] = d1 * 256 + d2 := by simp
    have hpl1 := payload_loop_read (F + 1) rfuel f y ys [d0, d1, d2]
      (d1 * 256 + d2) _ _ hmiss (by rw [harg]; exact hqeq)
    have hpl2 := payload_loop_eof F rfuel f ([d0, d1, d2] ++ (y :: ys)) (d1 * 256 + d2)
      (by simp at hlen ⊢; omega)
    rw [process_buffer_pos_false (F + 2) rfuel ⟨f, y :: ys⟩ d0 d1 d2 _ hL
      (hpl1.trans hpl2)]
    rfl

/-- Claim C2: if the stream ends before 3 header bytes arrive, or a full
header arrives but fewer than `length` payload bytes do, `recv()` returns
"no command" without raising and the transport reports end-of-stream
(the truncated bytes stay in the read buffer, discarded with the
transport). -/
theorem c2_truncation_yields_no_command (r : Reader)
    (hp : r.progressive) (hb : r.bounded) (fuel rfuel : Nat)
    (hf : 4 ≤ fuel) (hr : r.data.length + 4 ≤ rfuel)
    (hd : r.data.length < 3 ∨
      ∃ d0 d1 d2 rest, r.data = d0 :: d1 :: d2 :: rest ∧
        rest.length < d1 * 256 + d2) :
    recvObs fuel rfuel (CommandTransport.init r) = some (none, r.data, true) := by
  obtain ⟨f, d⟩ := r
  dsimp only at hr
  simp only [recvObs]
  rcases hd with hd | ⟨d0, d1, d2, rest, hdeq, hlen⟩
  · rw [recv_truncated_header f hp hb fuel rfuel d (by omega) (by omega) hd]
    simp [CommandTransport.at_eof, Reader.at_eof]
  · simp only at hdeq
    subst hdeq
    rw [recv_truncated_payload f hp hb fuel rfuel d0 d1 d2 rest hf
      (by simp only [List.length_cons] at hr ⊢; omega) hlen]
    simp [CommandTransport.at_eof, Reader.at_eof]

/-- Witness for C2: a one-byte-at-a-time stream that ends after the first
header byte `0x20`. -/
theorem c2_witness :
    recvObs 4 5 (CommandTransport.init (OneByteAtATimeReader [0x20]))
      = some (none, (OneByteAtATimeReader [0x20]).data, true) :=
  c2_truncation_yields_no_command (OneByteAtATimeReader [0x20])
    (by intro n h; simp [OneByteAtATimeReader])
    (by intro n h; simpa [OneByteAtATimeReader] using h)
    4 5 (by norm_num) (by norm_num [OneByteAtATimeReader])
    (Or.inl (by norm_num [OneByteAtATimeReader]))

/-- Claim C10: for every reader whose `read(n)` hands out at most `n` bytes
(and at least one while data remains, so the retry loop makes progress),
`recv()` on a fresh transport is total and never raises — the buffer holds
exactly 3 bytes when the header is unpacked, so the exact-size unpack
cannot fail — and whenever `recv()` returns a command the read buffer is
left empty: no bytes of a later frame are retained. -/
theorem c10_recv_is_total_and_buffer_is_consumed (r : Reader)
    (hp : r.progressive) (hb : r.bounded) (fuel rfuel : Nat)
    (hf : 4 ≤ fuel) (hr : r.data.length + 4 ≤ rfuel) :
    (CommandTransport.recv fuel rfuel (CommandTransport.init r)).isSome = true ∧
    (((CommandTransport.recv fuel rfuel (CommandTransport.init r)).getD
        (none, CommandTransport.init r)).1 = none ∨
     ((CommandTransport.recv fuel rfuel (CommandTransport.init r)).getD
        (none, CommandTransport.init r)).2.read_buffer = []) := by
  obtain ⟨f, d⟩ := r
  dsimp only at hr
  rcases d with _ | ⟨d0, _ | ⟨d1, _ | ⟨d2, rest⟩⟩⟩
  · rw [recv_truncated_header f hp hb fuel rfuel [] (by omega) (by omega) (by norm_num)]
    exact ⟨rfl, Or.inl rfl⟩
  · rw [recv_truncated_header f hp hb fuel rfuel [d0] (by omega) (by omega) (by norm_num)]
    exact ⟨rfl, Or.inl rfl⟩
  · rw [recv_truncated_header f hp hb fuel rfuel [d0, d1] (by omega) (by omega) (by norm_num)]
    exact ⟨rfl, Or.inl rfl⟩
  · by_cases hlen : d1 * 256 + d2 ≤ rest.length
    · rw [recv_complete f hp hb fuel rfuel d0 d1 d2 rest hf
        (by simp only [List.length_cons] at hr ⊢; omega) hlen]
      exact ⟨rfl, Or.inr rfl⟩
    · rw [recv_truncated_payload f hp hb fuel rfuel d0 d1 d2 rest hf
        (by simp only [List.length_cons] at hr ⊢; omega) (by omega)]
      exact ⟨rfl, Or.inl rfl⟩

/-- Witness for C10: a one-byte-at-a-time stream carrying the `On` frame. -/
theorem c10_witness :
    (CommandTransport.recv 4 7
        (CommandTransport.init (OneByteAtATimeReader [0x12, 0, 0]))).isSome = true ∧
    (((CommandTransport.recv 4 7
        (CommandTransport.init (OneByteAtATimeReader [0x12, 0, 0]))).getD
          (none, CommandTransport.init (OneByteAtATimeReader [0x12, 0, 0]))).1 = none ∨
     ((CommandTransport.recv 4 7
        (CommandTransport.init (OneByteAtATimeReader [0x12, 0, 0]))).getD
          (none, CommandTransport.init (OneByteAtATimeReader [0x12, 0, 0]))).2.read_buffer
        = []) :=
  c10_recv_is_total_and_buffer_is_consumed (OneByteAtATimeReader [0x12, 0, 0])
    (by intro n h; simp [OneByteAtATimeReader])
    (by intro n h; simpa [OneByteAtATimeReader] using h)
    4 7 (by norm_num) (by norm_num [OneByteAtATimeReader])
